import Mathlib

/-!
Verification of the EcoTrack Excel export subsystem
(`server/ecotrack_excel_export.py`).

The Python module is shallowly embedded:

* Python dictionary-shaped order records become `OrderRec`/`Customer`
  structures whose fields are `Option PyVal` (absent key = `none`); Python
  truthiness is `PyVal.truthy`.
* The worksheet read by discovery is a `Sheet`: a column count plus a
  cell function (`none` = empty cell, `some s` = the cell's text after
  Python `str()`).
* `_discover_column_mapping` becomes `discover` (header-row scan `headerRow`
  plus the two mapping passes `pass1`/`pass2`).
* `_add_order_data` and `_set_cell_value` become `orderWrites` and
  `setCellValue`, producing the list of cell writes a row generates; a
  write records the logical field, target row/column, the written value
  (raw numeric or text) and whether the cell was text-formatted (`'@'`).
* `export_orders` becomes `exportOrders`, pairing all writes with the
  run's accumulated `log_errors` content (discovery warnings; the row
  path of the translated code is total, so no row error is ever added).
-/

namespace Ecotrack

/-- A Python value as it occurs in order records: `None`, `bool`, `int`
or `str`. -/
inductive PyVal where
  | none : PyVal
  | bool : Bool → PyVal
  | int : Int → PyVal
  | str : String → PyVal
deriving DecidableEq

/-- Python truthiness (`bool(v)`): `None` and `False` are falsy, a number
is truthy iff nonzero, a string iff nonempty. -/
def PyVal.truthy : PyVal → Bool
  | .none => false
  | .bool b => b
  | .int n => if n = 0 then false else true
  | .str s => if s = "" then false else true

/-- Python `str(v)`. -/
def pyStr : PyVal → String
  | .none => "None"
  | .bool b => if b then "True" else "False"
  | .int n => toString n
  | .str s => s

/-- The apostrophe character (codepoint 39). -/
def apos : Char := Char.ofNat 39

/-- `_set_cell_value`'s cleanup of phone-like values: drop a single
leading apostrophe if present (`value[1:]` after `startswith`). -/
def stripLeadingApos (s : String) : String :=
  match s.data with
  | [] => s
  | c :: rest => if c = apos then String.mk rest else s

/-- Whether a string begins with two apostrophes (the inputs on which a
second cleanup pass still changes the value). -/
def startsTwoApos (s : String) : Bool :=
  match s.data with
  | a :: b :: _ => a == apos && b == apos
  | _ => false

/-- Whether `n` is an initial segment of `h`. -/
def startsList : List Char → List Char → Bool
  | [], _ => true
  | _ :: _, [] => false
  | a :: as, b :: bs => a == b && startsList as bs

/-- Whether `n` occurs contiguously inside `h`. -/
def listInfixOf (n h : List Char) : Bool :=
  startsList n h ||
    match h with
    | [] => false
    | _ :: t => listInfixOf n t

/-- Python substring containment `needle in hay`. -/
def substr (needle hay : String) : Bool :=
  listInfixOf needle.data hay.data

/-- Python `str.lower`, restricted to ASCII letters plus the accented
uppercase letters that can occur in the template headers. -/
def charLower (c : Char) : Char :=
  if 65 ≤ c.toNat ∧ c.toNat ≤ 90 then Char.ofNat (c.toNat + 32)
  else if c = 'É' then 'é'
  else if c = 'È' then 'è'
  else if c = 'À' then 'à'
  else if c = 'Ç' then 'ç'
  else c

/-- Lowercase every character. -/
def pyLower (s : String) : String :=
  String.mk (s.data.map charLower)

/-- The whitespace characters `str.strip()` removes (space, tab, LF, VT,
FF, CR). -/
def isPyWS (c : Char) : Bool :=
  c == ' ' || c == Char.ofNat 9 || c == Char.ofNat 10 || c == Char.ofNat 11 ||
  c == Char.ofNat 12 || c == Char.ofNat 13

/-- Python `str.strip()`: drop leading and trailing whitespace. -/
def pyStrip (s : String) : String :=
  String.mk (((s.data.dropWhile isPyWS).reverse.dropWhile isPyWS).reverse)

/-- Header-cell normalization `str(cell_value).lower().strip()`. -/
def normText (s : String) : String :=
  pyStrip (pyLower s)

/-- Commune fallback `commune.split('_')[0].strip()`: the part before the
first underscore, stripped. -/
def communeSplit (c : String) : String :=
  pyStrip (String.mk (c.data.takeWhile fun ch => ch ≠ '_'))

/-- Commune resolution of `_add_order_data`: values containing `'_'` are
composite identifiers, resolved through the location-data lookup table
when it is available (`some tbl`) and yields a name, else by splitting on
the separator; values without the separator pass through unchanged. -/
def resolveCommune (lookup : Option (String → Option String)) (c : String) : String :=
  if c.data.contains '_' then
    match lookup with
    | some tbl =>
      match tbl c with
      | some nm => nm
      | Option.none => communeSplit c
    | Option.none => communeSplit c
  else c

/-- The logical fields of the exporter (the keys of `header_synonyms`). -/
inductive Field where
  | ref | name | phone | phone2 | wilaya_code | wilaya | commune | address
  | product | weight | amount | note | fragile | exchange | pickup | cod
  | stop_desk | map
deriving DecidableEq

/-- The fields in Python dict-iteration order of `header_synonyms`. -/
def fieldOrder : List Field :=
  [.ref, .name, .phone, .phone2, .wilaya_code, .wilaya, .commune, .address,
   .product, .weight, .amount, .note, .fragile, .exchange, .pickup, .cod,
   .stop_desk, .map]

/-- The synonym lists of `header_synonyms`, verbatim. -/
def fieldSynonyms : Field → List String
  | .ref => ["ref", "reference", "reference commande", "commande ref", "réf", "référence"]
  | .name => ["nom", "destinataire", "nom et prenom", "nom et prénom", "nom et prenom du destinataire", "client"]
  | .phone => ["telephone*", "téléphone*", "telephone", "téléphone", "tel", "tél", "tel1", "numéro téléphone"]
  | .phone2 => ["telephone 2", "téléphone 2", "telephone2", "téléphone2", "tel2", "tél2", "numéro téléphone2", "numéro secondaire"]
  | .wilaya_code => ["code wilaya", "wilaya code", "code", "cod wilaya"]
  | .wilaya => ["wilaya", "wilaya de livraison", "w"]
  | .commune => ["commune", "commune de livraison", "ville"]
  | .address => ["adresse", "adresse de livraison", "address"]
  | .product => ["produit", "product", "article", "désignation", "designation"]
  | .weight => ["poids", "poids (kg)", "weight", "kg"]
  | .amount => ["montant", "montant du colis", "prix", "price", "cod", "c.o.d"]
  | .note => ["remarque", "note", "notes", "commentaire", "observation"]
  | .fragile => ["fragile"]
  | .exchange => ["échange", "echange", "exchange"]
  | .pickup => ["pick up", "pickup", "ramassage"]
  | .cod => ["recouvrement", "c.o.d", "cod", "contre remboursement"]
  | .stop_desk => ["stop desk", "stopdesk", "point de relais", "point relais"]
  | .map => ["lien map", "map", "carte", "google map", "link", "url"]

/-- The Python-side name of each field (used in the warning messages). -/
def fieldName : Field → String
  | .ref => "ref"
  | .name => "name"
  | .phone => "phone"
  | .phone2 => "phone2"
  | .wilaya_code => "wilaya_code"
  | .wilaya => "wilaya"
  | .commune => "commune"
  | .address => "address"
  | .product => "product"
  | .weight => "weight"
  | .amount => "amount"
  | .note => "note"
  | .fragile => "fragile"
  | .exchange => "exchange"
  | .pickup => "pickup"
  | .cod => "cod"
  | .stop_desk => "stop_desk"
  | .map => "map"

/-- A worksheet as discovery reads it: the column count and, for each
(row, column), the cell's text (`none` = empty cell / `None` value). -/
structure Sheet where
  maxCol : Nat
  cell : Nat → Nat → Option String

/-- Whether a header cell's normalized text matches some field's synonym
set (the inner loop of the header-row scan counts at most one match per
cell: the `break` after the first matching field group). -/
def cellMatches (t : String) : Bool :=
  fieldOrder.any fun f => (fieldSynonyms f).any fun syn => substr syn t

/-- How many cells of row `r` match some synonym (`matches` of the scan
loop). -/
def rowMatchCount (s : Sheet) (r : Nat) : Nat :=
  ((List.range' 1 s.maxCol).filter fun c =>
    match s.cell r c with
    | Option.none => false
    | some v => cellMatches (normText v)).length

/-- The body of the header-scan loop: keep `(max_matches, header_row)`,
updating only on a strictly greater match count. -/
def scanRows (f : Nat → Nat) : List Nat → Nat × Nat → Nat × Nat
  | [], acc => acc
  | r :: rs, acc => scanRows f rs (if acc.1 < f r then (f r, r) else acc)

/-- The detected header row: scan rows 1..10, starting from the default
`(0, 1)`. -/
def headerRow (s : Sheet) : Nat :=
  (scanRows (rowMatchCount s) (List.range' 1 10) (0, 1)).2

/-- `data_start_row = header_row + 1`. -/
def dataStartRow (s : Sheet) : Nat :=
  headerRow s + 1

/-- The first-pass exact/starred test for the `phone` column. -/
def phoneExactMatch (t : String) : Bool :=
  t == "telephone" || t == "téléphone" || t == "telephone*" || t == "téléphone*" ||
  substr "telephone*" t || substr "téléphone*" t

/-- The first-pass test for the `phone2` column. -/
def phone2ExactMatch (t : String) : Bool :=
  t == "telephone 2" || t == "téléphone 2" || t == "telephone2" || t == "téléphone2" ||
  substr "telephone 2" t || substr "téléphone 2" t

/-- Mapping-construction state: `column_mapping` and `mapped_columns`. -/
structure DiscState where
  mapping : Field → Option Nat
  mappedCols : List Nat

/-- The empty state discovery starts from. -/
def initState : DiscState :=
  ⟨fun _ => Option.none, []⟩

/-- Dictionary update `column_mapping[f] = col`. -/
def updateM (m : Field → Option Nat) (f : Field) (col : Nat) : Field → Option Nat :=
  fun g => if g = f then some col else m g

/-- One column of the first pass (exact phone/phone2 matching). -/
def pass1Step (s : Sheet) (hd : Nat) (st : DiscState) (col : Nat) : DiscState :=
  match s.cell hd col with
  | Option.none => st
  | some v =>
    let t := normText v
    if phoneExactMatch t then ⟨updateM st.mapping .phone col, col :: st.mappedCols⟩
    else if phone2ExactMatch t then ⟨updateM st.mapping .phone2 col, col :: st.mappedCols⟩
    else st

/-- The first pass over all columns. -/
def pass1 (s : Sheet) (hd : Nat) : List Nat → DiscState → DiscState
  | [], st => st
  | c :: cs, st => pass1 s hd cs (pass1Step s hd st c)

/-- The inner field loop of the second pass: assign the first not-yet-mapped
field whose synonym set matches, then stop. -/
def tryAssign (t : String) (col : Nat) (st : DiscState) : List Field → DiscState
  | [] => st
  | f :: fs =>
    if (st.mapping f).isSome then tryAssign t col st fs
    else if (fieldSynonyms f).any (fun syn => substr syn t) then
      ⟨updateM st.mapping f col, col :: st.mappedCols⟩
    else tryAssign t col st fs

/-- One column of the second pass: skip already-claimed columns and empty
cells, otherwise try the fields in dictionary order. -/
def pass2Step (s : Sheet) (hd : Nat) (st : DiscState) (col : Nat) : DiscState :=
  if col ∈ st.mappedCols then st
  else
    match s.cell hd col with
    | Option.none => st
    | some v => tryAssign (normText v) col st fieldOrder

/-- The second pass over all columns. -/
def pass2 (s : Sheet) (hd : Nat) : List Nat → DiscState → DiscState
  | [], st => st
  | c :: cs, st => pass2 s hd cs (pass2Step s hd st c)

/-- `_discover_column_mapping`: detect the header row, then run the two
mapping passes over columns 1..max_column. -/
def discover (s : Sheet) : DiscState :=
  pass2 s (headerRow s) (List.range' 1 s.maxCol)
    (pass1 s (headerRow s) (List.range' 1 s.maxCol) initState)

/-- The warning `log_errors` receives for a field without a column. -/
def warnMsg (f : Field) : String :=
  "Warning: Could not find column for " ++ apos.toString ++ fieldName f ++ apos.toString

/-- All warnings appended at the end of discovery, in field order. -/
def discoveryWarnings (s : Sheet) : List String :=
  (fieldOrder.filter fun f => ((discover s).mapping f).isNone).map warnMsg

/-- The nested customer object of an order (absent keys are `none`). -/
structure Customer where
  name : Option PyVal
  phone : Option PyVal
  phone2 : Option PyVal
  wilaya : Option PyVal
  wilayaName : Option PyVal
  commune : Option PyVal
  address : Option PyVal
  mapLink : Option PyVal

/-- An order record as `_add_order_data` reads it. -/
structure OrderRec where
  reference : Option PyVal
  customer : Option Customer
  commune : Option PyVal
  finalAmount : Option PyVal
  totalAmount : Option PyVal
  notes : Option PyVal
  fragile : Option PyVal
  echange : Option PyVal
  pickup : Option PyVal
  recouvrement : Option PyVal
  stopDesk : Option PyVal

/-- `'k' in d and d['k']`: key present with a truthy value. -/
def truthyOpt : Option PyVal → Bool
  | Option.none => false
  | some v => v.truthy

/-- The phone extraction of `_add_order_data`: `str(customer['phone'])`
when the key is present and truthy, else the empty string (the `elif`
fallback re-reads the same key, so it never fires). -/
def phoneStr : Option PyVal → String
  | some v => if v.truthy then pyStr v else ""
  | Option.none => ""

/-- The raw commune string: the order's own `commune` field when truthy,
else the customer's (the third `elif` re-reads the customer field). -/
def communeRaw (o : OrderRec) (cu : Customer) : String :=
  match o.commune with
  | some v => if v.truthy then pyStr v else (if truthyOpt cu.commune then pyStr ((cu.commune).getD .none) else "")
  | Option.none => if truthyOpt cu.commune then pyStr ((cu.commune).getD .none) else ""

/-- The rendering of one checkbox flag: `'OUI' if order.get(k, False) else ''`. -/
def flagCell (v : Option PyVal) : String :=
  if truthyOpt v then "OUI" else ""

/-- `order.get('finalAmount', order.get('totalAmount', 0))`. -/
def amountVal (o : OrderRec) : PyVal :=
  match o.finalAmount with
  | some v => v
  | Option.none =>
    match o.totalAmount with
    | some v => v
    | Option.none => .int 0

/-- A written cell value: either a raw (numeric-typed) Python value or a
text value produced via `str`. -/
inductive CellVal where
  | raw : PyVal → CellVal
  | text : String → CellVal
deriving DecidableEq

/-- One cell write: the logical field it came from, the target row and
column, the value, and whether the cell was formatted as text (`'@'`). -/
structure CellWrite where
  field : Field
  row : Nat
  col : Nat
  value : CellVal
  textFormat : Bool
deriving DecidableEq

/-- The fields `_set_cell_value` forces to text (`phone`, `phone2`,
`wilaya_code`). -/
def isTextField : Field → Bool
  | .phone => true
  | .phone2 => true
  | .wilaya_code => true
  | _ => false

/-- Python `isinstance(value, (int, float))` — true for ints and bools. -/
def isNumericVal : PyVal → Bool
  | .int _ => true
  | .bool _ => true
  | _ => false

/-- `_set_cell_value`: skip fields without a mapped column; write numeric
values raw unless the field is text-forced; text-forced fields get the
apostrophe-stripped string and the `'@'` number format; everything else
is written as `str(value)`. -/
def setCellValue (m : Field → Option Nat) (r : Nat) (f : Field) (v : PyVal) : Option CellWrite :=
  match m f with
  | Option.none => Option.none
  | some col =>
    if isNumericVal v && !isTextField f then
      some ⟨f, r, col, .raw v, false⟩
    else if isTextField f then
      some ⟨f, r, col, .text (stripLeadingApos (pyStr v)), true⟩
    else
      some ⟨f, r, col, .text (pyStr v), false⟩

/-- All cell writes `_add_order_data` emits for one order at row `r`,
in program order. -/
def orderWrites (m : Field → Option Nat) (lookup : Option (String → Option String))
    (r : Nat) (o : OrderRec) : List CellWrite :=
  (setCellValue m r .ref (o.reference.getD (.str ""))).toList ++
  (match o.customer with
   | some cu =>
     (setCellValue m r .name (cu.name.getD (.str ""))).toList ++
     (setCellValue m r .phone (.str (phoneStr cu.phone))).toList ++
     (setCellValue m r .phone2 (.str (phoneStr cu.phone2))).toList ++
     (setCellValue m r .wilaya_code (cu.wilaya.getD (.str ""))).toList ++
     (setCellValue m r .wilaya (cu.wilayaName.getD (.str ""))).toList ++
     (setCellValue m r .commune (.str (resolveCommune lookup (communeRaw o cu)))).toList ++
     (setCellValue m r .address (cu.address.getD (.str ""))).toList
   | Option.none => []) ++
  (setCellValue m r .product (.str "livres")).toList ++
  (setCellValue m r .amount (amountVal o)).toList ++
  (setCellValue m r .note (o.notes.getD (.str ""))).toList ++
  (setCellValue m r .fragile (.str (flagCell o.fragile))).toList ++
  (setCellValue m r .exchange (.str (flagCell o.echange))).toList ++
  (setCellValue m r .pickup (.str (flagCell o.pickup))).toList ++
  (setCellValue m r .cod (.str (flagCell o.recouvrement))).toList ++
  (setCellValue m r .stop_desk (.str (flagCell o.stopDesk))).toList ++
  (match o.customer with
   | some cu =>
     match cu.mapLink with
     | some v => (setCellValue m r .map v).toList
     | Option.none => []
   | Option.none => [])

/-- The observable outcome of a run: every cell write, and the content of
`log_errors` when the run ends. -/
structure ExportResult where
  writes : List CellWrite
  errors : List String

/-- `export_orders`: discover the mapping, then write one row per order at
`data_start_row + i`. The translated row path is total, so the error log
holds exactly the discovery warnings. -/
def exportOrders (s : Sheet) (lookup : Option (String → Option String))
    (orders : List OrderRec) : ExportResult :=
  { writes :=
      (orders.enum.map fun p =>
        orderWrites (discover s).mapping lookup (dataStartRow s + p.1) p.2).flatten
    errors := discoveryWarnings s }

/-! ### Concrete inputs used by witnesses and counterexamples -/

/-- A sheet whose only header cell is `nom` (row 1, column 1). -/
def nomSheet : Sheet :=
  ⟨1, fun r c => if r = 1 ∧ c = 1 then some "nom" else Option.none⟩

/-- A sheet whose only header cell is `produit`: the product column is
discovered but no required field is. -/
def produitSheet : Sheet :=
  ⟨1, fun r c => if r = 1 ∧ c = 1 then some "produit" else Option.none⟩

/-- A sheet with two columns both headed `telephone`. -/
def phSheet : Sheet :=
  ⟨2, fun r c => if r = 1 ∧ (c = 1 ∨ c = 2) then some "telephone" else Option.none⟩

/-- A sheet with no cells at all. -/
def emptySheet : Sheet :=
  ⟨0, fun _ _ => Option.none⟩

/-- An explicit total column mapping assigning columns 1..18 in field
order. -/
def mEx : Field → Option Nat
  | .ref => some 1
  | .name => some 2
  | .phone => some 3
  | .phone2 => some 4
  | .wilaya_code => some 5
  | .wilaya => some 6
  | .commune => some 7
  | .address => some 8
  | .product => some 9
  | .weight => some 10
  | .amount => some 11
  | .note => some 12
  | .fragile => some 13
  | .exchange => some 14
  | .pickup => some 15
  | .cod => some 16
  | .stop_desk => some 17
  | .map => some 18

/-- A reference lookup table resolving `Akabli_1` to `Akabli`. -/
def tblEx : String → Option String :=
  fun s => if s = "Akabli_1" then some "Akabli" else Option.none

/-- A concrete customer: local-format phone, a composite commune
identifier, and an available wilaya display name. -/
def cuEx : Customer :=
  { name := some (.str "X")
    phone := some (.str "0551234567")
    phone2 := Option.none
    wilaya := some (.str "1")
    wilayaName := some (.str "Alger")
    commune := some (.str "Akabli_1")
    address := some (.str "Y")
    mapLink := Option.none }

/-- A concrete order around `cuEx`, with the `fragile` flag supplied as
the string `"false"`. -/
def oEx : OrderRec :=
  { reference := some (.str "A1")
    customer := some cuEx
    commune := Option.none
    finalAmount := some (.int 1500)
    totalAmount := Option.none
    notes := Option.none
    fragile := some (.str "false")
    echange := Option.none
    pickup := Option.none
    recouvrement := Option.none
    stopDesk := Option.none }

/-- A customer dictionary with no keys at all. -/
def cuEmpty : Customer :=
  { name := Option.none
    phone := Option.none
    phone2 := Option.none
    wilaya := Option.none
    wilayaName := Option.none
    commune := Option.none
    address := Option.none
    mapLink := Option.none }

/-- An order with an empty customer object and nothing else. -/
def oEmptyCust : OrderRec :=
  { reference := Option.none
    customer := some cuEmpty
    commune := Option.none
    finalAmount := Option.none
    totalAmount := Option.none
    notes := Option.none
    fragile := Option.none
    echange := Option.none
    pickup := Option.none
    recouvrement := Option.none
    stopDesk := Option.none }

/-- An order with no `customer` key. -/
def oNoCust : OrderRec :=
  { reference := some (.str "R9")
    customer := Option.none
    commune := Option.none
    finalAmount := Option.none
    totalAmount := some (.int 900)
    notes := some (.str "n")
    fragile := some (.bool true)
    echange := Option.none
    pickup := Option.none
    recouvrement := Option.none
    stopDesk := Option.none }

/-! ### Counterexample theorems -/

/-- C1 counterexample: the phone `"0551234567"` (no leading `+`) is written
verbatim and text-typed; it is not rewritten to `"+213551234567"` — no
country calling-code prefix is prepended and no leading zero is dropped. -/
theorem c1_counterexample :
    CellWrite.mk .phone 2 3 (.text "0551234567") true ∈ orderWrites mEx Option.none 2 oEx ∧
    (∀ w ∈ orderWrites mEx Option.none 2 oEx, w.field = .phone →
      w.value ≠ .text "+213551234567") := by
  decide

/-- C2 counterexample: on a template whose only recognizable header is
`produit`, none of the required fields (name, phone, address) receives a
column, yet the export run does not fail: it still writes the order's
product cell. -/
theorem c2_counterexample :
    ((discover produitSheet).mapping .name = Option.none ∧
     (discover produitSheet).mapping .phone = Option.none ∧
     (discover produitSheet).mapping .address = Option.none) ∧
    (exportOrders produitSheet Option.none [oEx]).writes ≠ [] := by
  decide

/-- C3 counterexample: the string input `"false"` is truthy in Python, so
flag normalization yields true and the written cell is `"OUI"`, not the
empty string the claim requires. -/
theorem c3_counterexample :
    flagCell (some (.str "false")) = "OUI" ∧
    CellWrite.mk .fragile 2 13 (.text "OUI") false ∈ orderWrites mEx Option.none 2 oEx ∧
    ("OUI" : String) ≠ "" := by
  decide

/-- C4 counterexample: an order whose customer object has no name and no
address gets empty text cells written for both fields — the row write does
not fail. -/
theorem c4_counterexample :
    CellWrite.mk .name 2 2 (.text "") false ∈ orderWrites mEx Option.none 2 oEmptyCust ∧
    CellWrite.mk .address 2 8 (.text "") false ∈ orderWrites mEx Option.none 2 oEmptyCust := by
  decide

/-- C7 counterexample: with a wilaya display name available
(`wilayaName = "Alger"`), the row-write path writes `"Alger"` into the
wilaya cell — the cell is not left blank. -/
theorem c7_counterexample :
    CellWrite.mk .wilaya 2 6 (.text "Alger") false ∈ orderWrites mEx Option.none 2 oEx ∧
    (∀ w ∈ orderWrites mEx Option.none 2 oEx, w.field = .wilaya →
      w.value ≠ .text "") := by
  decide

/-- C8 counterexample: on a template with two columns both headed
`telephone`, column 1 matches the phone patterns, yet discovery maps
`phone` to column 2 — the exact-match pass reassigns, so the first
matching column does not win. -/
theorem c8_counterexample :
    phoneExactMatch (normText "telephone") = true ∧
    (discover phSheet).mapping .phone = some 2 ∧
    (discover phSheet).mapping .phone ≠ some 1 := by
  decide

/-- C9 counterexample: on an input beginning with two apostrophes the
cleanup applied by `_set_cell_value` to phone values is not idempotent —
a second application strips a second apostrophe. -/
theorem c9_counterexample :
    stripLeadingApos (stripLeadingApos (String.mk [apos, apos, Char.ofNat 48])) ≠
      stripLeadingApos (String.mk [apos, apos, Char.ofNat 48]) := by
  decide

/-! ### Header-row detection (C5) -/

/-- If no row beats the running maximum, the scan state never changes. -/
lemma scanRows_const (f : Nat → Nat) (rs : List Nat) (mx hr : Nat)
    (h : ∀ r ∈ rs, f r ≤ mx) : scanRows f rs (mx, hr) = (mx, hr) := by
  induction rs with
  | nil => rfl
  | cons r rs ih =>
    have h1 : ¬ (mx < f r) := not_lt.mpr (h r (List.mem_cons_self _ _))
    show scanRows f rs (if (mx, hr).1 < f r then (f r, r) else (mx, hr)) = (mx, hr)
    rw [if_neg h1]
    exact ih fun x hx => h x (List.mem_cons_of_mem _ hx)

/-- Behaviour of the strict-improvement scan over a sorted row list: the
initial maximum never decreases, every scanned row's count is bounded by
the final maximum, the final state is either untouched or the earliest
row achieving the final (strictly improved) maximum, and rows before the
winner have strictly smaller counts. -/
lemma scanRows_spec (f : Nat → Nat) (rs : List Nat) :
    ∀ (mx hr : Nat), List.Pairwise (· ≤ ·) rs → (∀ r ∈ rs, hr ≤ r) →
      mx ≤ (scanRows f rs (mx, hr)).1 ∧
      (∀ r ∈ rs, f r ≤ (scanRows f rs (mx, hr)).1) ∧
      (scanRows f rs (mx, hr) = (mx, hr) ∨
        ((scanRows f rs (mx, hr)).2 ∈ rs ∧
         (scanRows f rs (mx, hr)).1 = f (scanRows f rs (mx, hr)).2 ∧
         mx < (scanRows f rs (mx, hr)).1)) ∧
      (∀ r ∈ rs, r < (scanRows f rs (mx, hr)).2 → f r < (scanRows f rs (mx, hr)).1) := by
  induction rs with
  | nil =>
    intro mx hr _ _
    exact ⟨le_refl _, by simp, Or.inl rfl, by simp⟩
  | cons r rs ih =>
    intro mx hr hpw hhr
    have hpw' : List.Pairwise (· ≤ ·) rs := (List.pairwise_cons.mp hpw).2
    have hler : ∀ x ∈ rs, r ≤ x := (List.pairwise_cons.mp hpw).1
    by_cases hlt : mx < f r
    · have hstep : scanRows f (r :: rs) (mx, hr) = scanRows f rs (f r, r) := by
        show scanRows f rs (if (mx, hr).1 < f r then (f r, r) else (mx, hr)) = _
        rw [if_pos hlt]
      obtain ⟨h1, h2, h3, h4⟩ := ih (f r) r hpw' hler
      rw [hstep]
      refine ⟨le_of_lt (lt_of_lt_of_le hlt h1), ?_, ?_, ?_⟩
      · intro x hx
        rcases List.mem_cons.mp hx with hx | hx
        · exact hx ▸ h1
        · exact h2 x hx
      · rcases h3 with he | ⟨hm, he, hlt2⟩
        · refine Or.inr ⟨?_, ?_, ?_⟩
          · rw [he]; exact List.mem_cons_self _ _
          · rw [he]
          · rw [he]; exact hlt
        · exact Or.inr ⟨List.mem_cons_of_mem _ hm, he, lt_trans hlt hlt2⟩
      · intro x hx hxlt
        rcases List.mem_cons.mp hx with hx | hx
        · subst hx
          rcases h3 with he | ⟨_, _, hlt2⟩
          · rw [he] at hxlt; exact absurd hxlt (lt_irrefl _)
          · exact lt_of_le_of_lt (le_refl (f x)) (by exact hlt2)
        · exact h4 x hx hxlt
    · have hstep : scanRows f (r :: rs) (mx, hr) = scanRows f rs (mx, hr) := by
        show scanRows f rs (if (mx, hr).1 < f r then (f r, r) else (mx, hr)) = _
        rw [if_neg hlt]
      obtain ⟨h1, h2, h3, h4⟩ :=
        ih mx hr hpw' fun x hx => hhr x (List.mem_cons_of_mem _ hx)
      rw [hstep]
      refine ⟨h1, ?_, ?_, ?_⟩
      · intro x hx
        rcases List.mem_cons.mp hx with hx | hx
        · exact hx ▸ le_trans (not_lt.mp hlt) h1
        · exact h2 x hx
      · rcases h3 with he | ⟨hm, he, hlt2⟩
        · exact Or.inl he
        · exact Or.inr ⟨List.mem_cons_of_mem _ hm, he, hlt2⟩
      · intro x hx hxlt
        rcases List.mem_cons.mp hx with hx | hx
        · subst hx
          rcases h3 with he | ⟨_, _, hlt2⟩
          · rw [he] at hxlt
            exact absurd (lt_of_lt_of_le hxlt (hhr x (List.mem_cons_self _ _)))
              (lt_irrefl _)
          · exact lt_of_le_of_lt (not_lt.mp hlt) hlt2
        · exact h4 x hx hxlt

/-- Membership in the scanned window. -/
lemma mem_range_ten (r : Nat) : r ∈ List.range' 1 10 ↔ 1 ≤ r ∧ r ≤ 10 := by
  rw [List.mem_range'_1]
  omega

/-- C5: the detected header row lies in rows 1..10; its synonym-match
count is maximal over the window; every earlier row has a strictly
smaller count (so the earliest maximal row wins); if every row of the
window has zero matches the header row defaults to 1; and data rows begin
immediately below the header row. -/
theorem c5_header_detection (s : Sheet) :
    (1 ≤ headerRow s ∧ headerRow s ≤ 10) ∧
    (∀ r, 1 ≤ r → r ≤ 10 → rowMatchCount s r ≤ rowMatchCount s (headerRow s)) ∧
    (∀ r, 1 ≤ r → r < headerRow s → rowMatchCount s r < rowMatchCount s (headerRow s)) ∧
    ((∀ r, 1 ≤ r → r ≤ 10 → rowMatchCount s r = 0) → headerRow s = 1) ∧
    dataStartRow s = headerRow s + 1 := by
  have hpw : List.Pairwise (· ≤ ·) (List.range' 1 10) := by decide
  have hhr : ∀ r ∈ List.range' 1 10, 1 ≤ r := by decide
  obtain ⟨h1, h2, h3, h4⟩ := scanRows_spec (rowMatchCount s) (List.range' 1 10) 0 1 hpw hhr
  have hdr : headerRow s = (scanRows (rowMatchCount s) (List.range' 1 10) (0, 1)).2 := rfl
  refine ⟨?_, ?_, ?_, ?_, rfl⟩
  · rcases h3 with he | ⟨hm, _, _⟩
    · rw [hdr, he]; exact ⟨le_refl _, by norm_num⟩
    · rw [hdr]; exact (mem_range_ten _).mp hm
  · intro r hr1 hr10
    have hrm := h2 r ((mem_range_ten r).mpr ⟨hr1, hr10⟩)
    rcases h3 with he | ⟨_, heq, _⟩
    · rw [hdr, he]
      rw [he] at hrm
      exact le_trans hrm (Nat.zero_le _)
    · rw [hdr, ← heq]; exact hrm
  · intro r hr1 hrlt
    rw [hdr] at hrlt
    rcases h3 with he | ⟨hm, heq, _⟩
    · rw [he] at hrlt
      have h' : r < 1 := hrlt
      omega
    · have hb := (mem_range_ten _).mp hm
      have hr10 : r ≤ 10 := by omega
      have := h4 r ((mem_range_ten r).mpr ⟨hr1, hr10⟩) hrlt
      rw [hdr, ← heq]
      exact this
  · intro hz
    have hz' : ∀ r ∈ List.range' 1 10, rowMatchCount s r ≤ 0 := fun r hm =>
      le_of_eq (hz r ((mem_range_ten r).mp hm).1 ((mem_range_ten r).mp hm).2)
    rw [hdr, scanRows_const _ _ _ _ hz']

/-- C5 witness: the maximality conjunct applied at a concrete sheet and
row, and the all-zero default applied at a sheet with no cells. -/
theorem c5_witness :
    rowMatchCount nomSheet 4 ≤ rowMatchCount nomSheet (headerRow nomSheet) ∧
    headerRow emptySheet = 1 :=
  ⟨(c5_header_detection nomSheet).2.1 4 (by decide) (by decide),
   (c5_header_detection emptySheet).2.2.2.1 fun _ _ _ => rfl⟩

/-! ### Mapping discovery invariants (C8) -/

/-- A column whose header cell passes the first-pass phone test. -/
def phCol (s : Sheet) (hd c : Nat) : Prop :=
  ∃ v, s.cell hd c = some v ∧ phoneExactMatch (normText v) = true

/-- A column whose header cell passes the first-pass phone2 test (and so
failed the phone test, by the `elif`). -/
def ph2Col (s : Sheet) (hd c : Nat) : Prop :=
  ∃ v, s.cell hd c = some v ∧ phoneExactMatch (normText v) = false ∧
    phone2ExactMatch (normText v) = true

/-- No two fields share a column. -/
def injMap (m : Field → Option Nat) : Prop :=
  ∀ f g c, m f = some c → m g = some c → f = g

/-- Invariant of the first pass: only `phone`/`phone2` are mapped, each to
a column of the corresponding kind, and every mapped column has been
claimed in `mapped_columns`. -/
def inv1 (s : Sheet) (hd : Nat) (st : DiscState) : Prop :=
  (∀ f, f ≠ Field.phone → f ≠ Field.phone2 → st.mapping f = Option.none) ∧
  (∀ c, st.mapping .phone = some c → phCol s hd c) ∧
  (∀ c, st.mapping .phone2 = some c → ph2Col s hd c) ∧
  (∀ f c, st.mapping f = some c → c ∈ st.mappedCols)

/-- Invariant carried through the second pass: the mapping is injective
and every mapped column is claimed. -/
def inv2 (st : DiscState) : Prop :=
  injMap st.mapping ∧ ∀ f c, st.mapping f = some c → c ∈ st.mappedCols

lemma inv1_init (s : Sheet) (hd : Nat) : inv1 s hd initState := by
  refine ⟨fun _ _ _ => rfl, ?_, ?_, ?_⟩
  · intro c h; exact Option.noConfusion h
  · intro c h; exact Option.noConfusion h
  · intro f c h; exact Option.noConfusion h

lemma pass1Step_inv (s : Sheet) (hd : Nat) (st : DiscState) (col : Nat)
    (h : inv1 s hd st) : inv1 s hd (pass1Step s hd st col) := by
  obtain ⟨h1, h2, h3, h4⟩ := h
  unfold pass1Step
  cases hcell : s.cell hd col with
  | none => exact ⟨h1, h2, h3, h4⟩
  | some v =>
    simp only
    by_cases hp : phoneExactMatch (normText v) = true
    · rw [if_pos hp]
      refine ⟨?_, ?_, ?_, ?_⟩
      · intro f hf1 hf2
        show updateM st.mapping .phone col f = Option.none
        unfold updateM
        rw [if_neg hf1]
        exact h1 f hf1 hf2
      · intro c hc
        have : (if Field.phone = Field.phone then some col else st.mapping .phone) = some c := hc
        rw [if_pos rfl] at this
        injection this with hcol
        exact hcol ▸ ⟨v, hcell, hp⟩
      · intro c hc
        have : (if Field.phone2 = Field.phone then some col else st.mapping .phone2) = some c := hc
        rw [if_neg (by decide)] at this
        exact h3 c this
      · intro f c hc
        have hc' : (if f = Field.phone then some col else st.mapping f) = some c := hc
        show c ∈ col :: st.mappedCols
        by_cases hf : f = Field.phone
        · rw [if_pos hf] at hc'
          injection hc' with hcol
          exact hcol ▸ List.mem_cons_self _ _
        · rw [if_neg hf] at hc'
          exact List.mem_cons_of_mem _ (h4 f c hc')
    · rw [if_neg hp]
      have hpf : phoneExactMatch (normText v) = false := by
        cases hb : phoneExactMatch (normText v)
        · rfl
        · exact absurd hb hp
      by_cases hp2 : phone2ExactMatch (normText v) = true
      · rw [if_pos hp2]
        refine ⟨?_, ?_, ?_, ?_⟩
        · intro f hf1 hf2
          show updateM st.mapping .phone2 col f = Option.none
          unfold updateM
          rw [if_neg hf2]
          exact h1 f hf1 hf2
        · intro c hc
          have : (if Field.phone = Field.phone2 then some col else st.mapping .phone) = some c := hc
          rw [if_neg (by decide)] at this
          exact h2 c this
        · intro c hc
          have : (if Field.phone2 = Field.phone2 then some col else st.mapping .phone2) = some c := hc
          rw [if_pos rfl] at this
          injection this with hcol
          exact hcol ▸ ⟨v, hcell, hpf, hp2⟩
        · intro f c hc
          have hc' : (if f = Field.phone2 then some col else st.mapping f) = some c := hc
          show c ∈ col :: st.mappedCols
          by_cases hf : f = Field.phone2
          · rw [if_pos hf] at hc'
            injection hc' with hcol
            exact hcol ▸ List.mem_cons_self _ _
          · rw [if_neg hf] at hc'
            exact List.mem_cons_of_mem _ (h4 f c hc')
      · rw [if_neg hp2]
        exact ⟨h1, h2, h3, h4⟩

lemma pass1_inv (s : Sheet) (hd : Nat) (cs : List Nat) :
    ∀ st : DiscState, inv1 s hd st → inv1 s hd (pass1 s hd cs st) := by
  induction cs with
  | nil => intro st h; exact h
  | cons c cs ih => intro st h; exact ih _ (pass1Step_inv s hd st c h)

lemma inv1_to_inv2 (s : Sheet) (hd : Nat) (st : DiscState)
    (h : inv1 s hd st) : inv2 st := by
  obtain ⟨h1, h2, h3, h4⟩ := h
  refine ⟨?_, h4⟩
  intro f g c hf hg
  have key : ∀ x, st.mapping x = some c → x = Field.phone ∨ x = Field.phone2 := by
    intro x hx
    by_contra hcon
    push_neg at hcon
    rw [h1 x hcon.1 hcon.2] at hx
    exact Option.noConfusion hx
  have contra : ¬ (st.mapping Field.phone = some c ∧ st.mapping Field.phone2 = some c) := by
    rintro ⟨ha, hb⟩
    obtain ⟨v, hc1, hp⟩ := h2 c ha
    obtain ⟨v2, hc2, hpf, _⟩ := h3 c hb
    rw [hc1] at hc2
    injection hc2 with hv
    rw [← hv, hp] at hpf
    exact Bool.noConfusion hpf
  rcases key f hf with hf' | hf' <;> rcases key g hg with hg' | hg'
  · rw [hf', hg']
  · exact absurd ⟨hf' ▸ hf, hg' ▸ hg⟩ contra
  · exact absurd ⟨hg' ▸ hg, hf' ▸ hf⟩ contra
  · rw [hf', hg']

lemma tryAssign_cases (t : String) (col : Nat) (st : DiscState) (fs : List Field) :
    tryAssign t col st fs = st ∨
    ∃ f, st.mapping f = Option.none ∧
      tryAssign t col st fs = ⟨updateM st.mapping f col, col :: st.mappedCols⟩ := by
  induction fs with
  | nil => exact Or.inl rfl
  | cons f fs ih =>
    unfold tryAssign
    by_cases h1 : (st.mapping f).isSome = true
    · rw [if_pos h1]
      exact ih
    · rw [if_neg h1]
      by_cases h2 : ((fieldSynonyms f).any fun syn => substr syn t) = true
      · rw [if_pos h2]
        refine Or.inr ⟨f, ?_, rfl⟩
        cases hx : st.mapping f with
        | none => rfl
        | some c => rw [hx] at h1; exact absurd rfl h1
      · rw [if_neg h2]
        exact ih

lemma pass2Step_inv2 (s : Sheet) (hd : Nat) (st : DiscState) (col : Nat)
    (h : inv2 st) : inv2 (pass2Step s hd st col) := by
  obtain ⟨hi, hm⟩ := h
  unfold pass2Step
  by_cases hc : col ∈ st.mappedCols
  · rw [if_pos hc]; exact ⟨hi, hm⟩
  · rw [if_neg hc]
    cases hcell : s.cell hd col with
    | none => exact ⟨hi, hm⟩
    | some v =>
      simp only
      rcases tryAssign_cases (normText v) col st fieldOrder with he | ⟨f, hfnone, he⟩
      · rw [he]; exact ⟨hi, hm⟩
      · rw [he]
        constructor
        · intro g g' c hg hg'
          have hg1 : (if g = f then some col else st.mapping g) = some c := hg
          have hg2 : (if g' = f then some col else st.mapping g') = some c := hg'
          by_cases hgf : g = f <;> by_cases hgf' : g' = f
          · rw [hgf, hgf']
          · rw [if_pos hgf] at hg1
            rw [if_neg hgf'] at hg2
            injection hg1 with hcol
            rw [← hcol] at hg2
            exact absurd (hm g' col hg2) hc
          · rw [if_neg hgf] at hg1
            rw [if_pos hgf'] at hg2
            injection hg2 with hcol
            rw [← hcol] at hg1
            exact absurd (hm g col hg1) hc
          · rw [if_neg hgf] at hg1
            rw [if_neg hgf'] at hg2
            exact hi g g' c hg1 hg2
        · intro g c hg
          have hg1 : (if g = f then some col else st.mapping g) = some c := hg
          show c ∈ col :: st.mappedCols
          by_cases hgf : g = f
          · rw [if_pos hgf] at hg1
            injection hg1 with hcol
            exact hcol ▸ List.mem_cons_self _ _
          · rw [if_neg hgf] at hg1
            exact List.mem_cons_of_mem _ (hm g c hg1)

lemma pass2_inv2 (s : Sheet) (hd : Nat) (cs : List Nat) :
    ∀ st : DiscState, inv2 st → inv2 (pass2 s hd cs st) := by
  induction cs with
  | nil => intro st h; exact h
  | cons c cs ih => intro st h; exact ih _ (pass2Step_inv2 s hd st c h)

/-- C8 (amended): the discovered column mapping is one-to-one — no two
fields receive the same column, so each column is assigned to at most one
field. (The mapping is a pure function of the template, computed once.
The claim's "first matching column wins" clause fails for `phone`/`phone2`,
whose exact-match pass keeps the last matching column; see the
counterexample.) -/
theorem c8_discover_injective (s : Sheet) (f g : Field) (c : Nat)
    (hf : (discover s).mapping f = some c) (hg : (discover s).mapping g = some c) :
    f = g := by
  have h1 : inv1 s (headerRow s) (pass1 s (headerRow s) (List.range' 1 s.maxCol) initState) :=
    pass1_inv s (headerRow s) (List.range' 1 s.maxCol) initState (inv1_init s (headerRow s))
  have h2 : inv2 (discover s) :=
    pass2_inv2 s (headerRow s) (List.range' 1 s.maxCol) _ (inv1_to_inv2 s (headerRow s) _ h1)
  exact h2.1 f g c hf hg

/-- C8 witness: the injectivity theorem applied at a concrete discovered
mapping. -/
theorem c8_witness : Field.name = Field.name :=
  c8_discover_injective nomSheet .name .name 1 (by decide) (by decide)

/-! ### Row-writing theorems -/

/-- C1 (amended): for every order with a customer and every mapping
containing a phone column, the phone cell written is exactly the input
phone string (the truthy `str` of the customer's phone, else empty) with
a single leading apostrophe stripped, stored text-typed (`'@'`); no
character filtering, country calling-code prefix, or leading-zero
dropping takes place. -/
theorem c1_phone_written (m : Field → Option Nat)
    (lookup : Option (String → Option String)) (r : Nat) (o : OrderRec)
    (cu : Customer) (col : Nat)
    (hc : o.customer = some cu) (hcol : m .phone = some col) :
    CellWrite.mk .phone r col (.text (stripLeadingApos (phoneStr cu.phone))) true
      ∈ orderWrites m lookup r o := by
  have hset : setCellValue m r .phone (.str (phoneStr cu.phone)) =
      some (CellWrite.mk .phone r col (.text (stripLeadingApos (phoneStr cu.phone))) true) := by
    unfold setCellValue
    rw [hcol]
    rfl
  unfold orderWrites
  rw [hc]
  simp [hset, List.mem_append]

/-- C1 witness. -/
theorem c1_witness :
    CellWrite.mk .phone 5 3 (.text (stripLeadingApos (phoneStr cuEx.phone))) true
      ∈ orderWrites mEx Option.none 5 oEx :=
  c1_phone_written mEx Option.none 5 oEx cuEx 3 rfl rfl

/-- C2 (amended): when a field (required ones included) receives no column
during discovery, the run does not fail: discovery records a warning
naming the field in the run's error log, and the writer still produces
the per-order cell writes from whatever mapping was discovered. -/
theorem c2_missing_field_warns_and_continues (s : Sheet)
    (lookup : Option (String → Option String)) (orders : List OrderRec)
    (f : Field) (hmem : f ∈ fieldOrder)
    (hnone : (discover s).mapping f = Option.none) :
    warnMsg f ∈ (exportOrders s lookup orders).errors ∧
    (exportOrders s lookup orders).writes =
      (orders.enum.map fun p =>
        orderWrites (discover s).mapping lookup (dataStartRow s + p.1) p.2).flatten := by
  constructor
  · show warnMsg f ∈ discoveryWarnings s
    unfold discoveryWarnings
    exact List.mem_map_of_mem _ (List.mem_filter.mpr ⟨hmem, by rw [hnone]; rfl⟩)
  · rfl

/-- C2 witness. -/
theorem c2_witness :
    warnMsg .name ∈ (exportOrders produitSheet Option.none [oEx]).errors :=
  (c2_missing_field_warns_and_continues produitSheet Option.none [oEx] .name
    (by decide) (by decide)).1

/-- C3 (amended): flag normalization is Python truthiness. All listed
truthy inputs render `"OUI"`; among the listed falsy inputs, `False`,
`""`, `0` and `None` render the empty string — but the non-empty strings
`"false"`, `"0"` and `"non"` are truthy and render `"OUI"`. Each of the
five flag cells is written with `flagCell` of the corresponding order
attribute. -/
theorem c3_flag_truthiness :
    (flagCell (some (.bool true)) = "OUI" ∧ flagCell (some (.str "true")) = "OUI" ∧
     flagCell (some (.str "TRUE")) = "OUI" ∧ flagCell (some (.str "1")) = "OUI" ∧
     flagCell (some (.str "oui")) = "OUI" ∧ flagCell (some (.str "OUI")) = "OUI" ∧
     flagCell (some (.int 1)) = "OUI") ∧
    (flagCell (some (.bool false)) = "" ∧ flagCell (some (.str "")) = "" ∧
     flagCell (some (.int 0)) = "" ∧ flagCell (some .none) = "" ∧
     flagCell Option.none = "") ∧
    (flagCell (some (.str "false")) = "OUI" ∧ flagCell (some (.str "0")) = "OUI" ∧
     flagCell (some (.str "non")) = "OUI") ∧
    (∀ (m : Field → Option Nat) (lookup : Option (String → Option String))
       (r : Nat) (o : OrderRec) (c1 c2 c3 c4 c5 : Nat),
      m .fragile = some c1 → m .exchange = some c2 → m .pickup = some c3 →
      m .cod = some c4 → m .stop_desk = some c5 →
      CellWrite.mk .fragile r c1 (.text (flagCell o.fragile)) false ∈ orderWrites m lookup r o ∧
      CellWrite.mk .exchange r c2 (.text (flagCell o.echange)) false ∈ orderWrites m lookup r o ∧
      CellWrite.mk .pickup r c3 (.text (flagCell o.pickup)) false ∈ orderWrites m lookup r o ∧
      CellWrite.mk .cod r c4 (.text (flagCell o.recouvrement)) false ∈ orderWrites m lookup r o ∧
      CellWrite.mk .stop_desk r c5 (.text (flagCell o.stopDesk)) false ∈ orderWrites m lookup r o) := by
  refine ⟨by decide, by decide, by decide, ?_⟩
  intro m lookup r o c1 c2 c3 c4 c5 h1 h2 h3 h4 h5
  have hs1 : setCellValue m r .fragile (.str (flagCell o.fragile)) =
      some (CellWrite.mk .fragile r c1 (.text (flagCell o.fragile)) false) := by
    unfold setCellValue; rw [h1]; rfl
  have hs2 : setCellValue m r .exchange (.str (flagCell o.echange)) =
      some (CellWrite.mk .exchange r c2 (.text (flagCell o.echange)) false) := by
    unfold setCellValue; rw [h2]; rfl
  have hs3 : setCellValue m r .pickup (.str (flagCell o.pickup)) =
      some (CellWrite.mk .pickup r c3 (.text (flagCell o.pickup)) false) := by
    unfold setCellValue; rw [h3]; rfl
  have hs4 : setCellValue m r .cod (.str (flagCell o.recouvrement)) =
      some (CellWrite.mk .cod r c4 (.text (flagCell o.recouvrement)) false) := by
    unfold setCellValue; rw [h4]; rfl
  have hs5 : setCellValue m r .stop_desk (.str (flagCell o.stopDesk)) =
      some (CellWrite.mk .stop_desk r c5 (.text (flagCell o.stopDesk)) false) := by
    unfold setCellValue; rw [h5]; rfl
  refine ⟨?_, ?_, ?_, ?_, ?_⟩ <;>
    (unfold orderWrites; simp [hs1, hs2, hs3, hs4, hs5, List.mem_append])

/-- C3 witness. -/
theorem c3_witness :
    CellWrite.mk .fragile 2 13 (.text (flagCell oEx.fragile)) false
      ∈ orderWrites mEx Option.none 2 oEx :=
  (c3_flag_truthiness.2.2.2 mEx Option.none 2 oEx 13 14 15 16 17
    rfl rfl rfl rfl rfl).1

/-- C4 (amended): a missing or empty customer name, and likewise a
missing or empty customer address, is written as an empty text cell; the
row write does not fail (the translated row path is total) and nothing is
recorded for it. -/
theorem c4_blank_required_written (m : Field → Option Nat)
    (lookup : Option (String → Option String)) (r : Nat) (o : OrderRec)
    (cu : Customer)
    (hc : o.customer = some cu) :
    (∀ col, (cu.name = Option.none ∨ cu.name = some (.str "")) →
      m .name = some col →
      CellWrite.mk .name r col (.text "") false ∈ orderWrites m lookup r o) ∧
    (∀ col, (cu.address = Option.none ∨ cu.address = some (.str "")) →
      m .address = some col →
      CellWrite.mk .address r col (.text "") false ∈ orderWrites m lookup r o) := by
  constructor
  · intro col hn hcol
    have hset : setCellValue m r .name (cu.name.getD (.str "")) =
        some (CellWrite.mk .name r col (.text "") false) := by
      rcases hn with hn | hn <;> rw [hn] <;> (unfold setCellValue; rw [hcol]) <;> rfl
    unfold orderWrites
    rw [hc]
    simp [hset, List.mem_append]
  · intro col hn hcol
    have hset : setCellValue m r .address (cu.address.getD (.str "")) =
        some (CellWrite.mk .address r col (.text "") false) := by
      rcases hn with hn | hn <;> rw [hn] <;> (unfold setCellValue; rw [hcol]) <;> rfl
    unfold orderWrites
    rw [hc]
    simp [hset, List.mem_append]

/-- C4 witness: both the name and the address half, at a customer with
neither field. -/
theorem c4_witness :
    CellWrite.mk .name 3 2 (.text "") false ∈ orderWrites mEx Option.none 3 oEmptyCust ∧
    CellWrite.mk .address 3 8 (.text "") false ∈ orderWrites mEx Option.none 3 oEmptyCust :=
  ⟨(c4_blank_required_written mEx Option.none 3 oEmptyCust cuEmpty rfl).1 2 (Or.inl rfl) rfl,
   (c4_blank_required_written mEx Option.none 3 oEmptyCust cuEmpty rfl).2 8 (Or.inl rfl) rfl⟩

/-- C6: commune resolution. A value containing the separator resolves to
the lookup table's display name when the table is available and has the
identifier, and otherwise (table missing, or identifier absent) to the
part before the first underscore, stripped; a value without the separator
passes through unchanged; `"Akabli_1"` yields `"Akabli"` both via lookup
and via the fallback split; and the commune cell written by the row path
carries exactly the resolved value. -/
theorem c6_commune_resolution (tbl : String → Option String) (c : String) :
    (c.data.contains '_' = true →
      ((∀ nm, tbl c = some nm → resolveCommune (some tbl) c = nm) ∧
       (tbl c = Option.none → resolveCommune (some tbl) c = communeSplit c) ∧
       resolveCommune Option.none c = communeSplit c)) ∧
    (c.data.contains '_' = false →
      resolveCommune (some tbl) c = c ∧ resolveCommune Option.none c = c) ∧
    (resolveCommune Option.none "Akabli_1" = "Akabli" ∧
     (∀ tbl2 : String → Option String, tbl2 "Akabli_1" = some "Akabli" →
        resolveCommune (some tbl2) "Akabli_1" = "Akabli")) ∧
    (∀ (m : Field → Option Nat) (lookup : Option (String → Option String))
       (r : Nat) (o : OrderRec) (cu : Customer) (col : Nat),
      o.customer = some cu → m .commune = some col →
      CellWrite.mk .commune r col (.text (resolveCommune lookup (communeRaw o cu))) false
        ∈ orderWrites m lookup r o) := by
  refine ⟨?_, ?_, ⟨by decide, ?_⟩, ?_⟩
  · intro h
    refine ⟨?_, ?_, ?_⟩
    · intro nm hnm
      unfold resolveCommune
      rw [if_pos h]
      show (match tbl c with
            | some nm => nm
            | Option.none => communeSplit c) = nm
      rw [hnm]
    · intro hn
      unfold resolveCommune
      rw [if_pos h]
      show (match tbl c with
            | some nm => nm
            | Option.none => communeSplit c) = communeSplit c
      rw [hn]
    · unfold resolveCommune
      rw [if_pos h]
  · intro h
    have h' : ¬ (c.data.contains '_' = true) := by
      rw [h]; exact fun hh => Bool.noConfusion hh
    constructor <;> (unfold resolveCommune; rw [if_neg h'])
  · intro tbl2 ht
    unfold resolveCommune
    rw [if_pos (by decide)]
    show (match tbl2 "Akabli_1" with
          | some nm => nm
          | Option.none => communeSplit "Akabli_1") = "Akabli"
    rw [ht]
  · intro m lookup r o cu col hc hcol
    have hset : setCellValue m r .commune (.str (resolveCommune lookup (communeRaw o cu))) =
        some (CellWrite.mk .commune r col
          (.text (resolveCommune lookup (communeRaw o cu))) false) := by
      unfold setCellValue; rw [hcol]; rfl
    unfold orderWrites
    rw [hc]
    simp [hset, List.mem_append]

/-- C6 witness. -/
theorem c6_witness :
    resolveCommune (some tblEx) "Akabli_1" = "Akabli" ∧
    CellWrite.mk .commune 2 7 (.text (resolveCommune Option.none (communeRaw oEx cuEx))) false
      ∈ orderWrites mEx Option.none 2 oEx :=
  ⟨((c6_commune_resolution tblEx "Akabli_1").1 (by decide)).1 "Akabli" rfl,
   (c6_commune_resolution tblEx "x").2.2.2 mEx Option.none 2 oEx cuEx 7 rfl rfl⟩

/-- C7 (amended): the row-write path writes the customer's available
wilaya display name (`wilayaName`) into the wilaya cell — the cell is not
left blank when a value is available. -/
theorem c7_wilaya_name_written (m : Field → Option Nat)
    (lookup : Option (String → Option String)) (r : Nat) (o : OrderRec)
    (cu : Customer) (col : Nat) (s' : String)
    (hc : o.customer = some cu) (hw : cu.wilayaName = some (.str s'))
    (hcol : m .wilaya = some col) :
    CellWrite.mk .wilaya r col (.text s') false ∈ orderWrites m lookup r o := by
  have hset : setCellValue m r .wilaya (cu.wilayaName.getD (.str "")) =
      some (CellWrite.mk .wilaya r col (.text s') false) := by
    rw [hw]
    unfold setCellValue
    rw [hcol]
    rfl
  unfold orderWrites
  rw [hc]
  simp [hset, List.mem_append]

/-- C7 witness. -/
theorem c7_witness :
    CellWrite.mk .wilaya 2 6 (.text "Alger") false ∈ orderWrites mEx Option.none 2 oEx :=
  c7_wilaya_name_written mEx Option.none 2 oEx cuEx 6 "Alger" rfl rfl rfl

/-- C9 (amended): the phone-value cleanup is idempotent on every input
that does not begin with two consecutive apostrophes (on such inputs a
second application strips a second apostrophe). -/
theorem c9_strip_idempotent (s : String) (h : startsTwoApos s = false) :
    stripLeadingApos (stripLeadingApos s) = stripLeadingApos s := by
  cases s with
  | mk l =>
    cases l with
    | nil => rfl
    | cons c rest =>
      have hred : stripLeadingApos (String.mk (c :: rest)) =
          if c = apos then String.mk rest else String.mk (c :: rest) := rfl
      by_cases hc : c = apos
      · rw [hred, if_pos hc]
        cases rest with
        | nil => rfl
        | cons c2 r2 =>
          have hred2 : stripLeadingApos (String.mk (c2 :: r2)) =
              if c2 = apos then String.mk r2 else String.mk (c2 :: r2) := rfl
          have hc2 : ¬ (c2 = apos) := by
            intro hh
            have h' : (c == apos && c2 == apos) = false := h
            rw [hc, hh] at h'
            simp at h'
          rw [hred2, if_neg hc2]
      · simp only [hred, if_neg hc]

/-- C9 witness. -/
theorem c9_witness :
    startsTwoApos "0551234567" = false ∧
    stripLeadingApos (stripLeadingApos "0551234567") = stripLeadingApos "0551234567" :=
  ⟨by decide, c9_strip_idempotent "0551234567" (by decide)⟩

/-! ### Customerless orders (C10) -/

/-- Any write emitted through `setCellValue` carries the field and row it
was called with. -/
lemma setCell_field_row (m : Field → Option Nat) (r : Nat) (f : Field) (v : PyVal)
    (w : CellWrite) (hw : w ∈ (setCellValue m r f v).toList) :
    w.field = f ∧ w.row = r := by
  unfold setCellValue at hw
  cases hm : m f with
  | none =>
    simp only [hm, Option.toList] at hw
    exact absurd hw (List.not_mem_nil _)
  | some col =>
    simp only [hm] at hw
    by_cases h1 : (isNumericVal v && !isTextField f) = true
    · rw [if_pos h1] at hw
      simp only [Option.toList, List.mem_singleton] at hw
      rw [hw]; exact ⟨rfl, rfl⟩
    · rw [if_neg h1] at hw
      by_cases h2 : isTextField f = true
      · rw [if_pos h2] at hw
        simp only [Option.toList, List.mem_singleton] at hw
        rw [hw]; exact ⟨rfl, rfl⟩
      · rw [if_neg h2] at hw
        simp only [Option.toList, List.mem_singleton] at hw
        rw [hw]; exact ⟨rfl, rfl⟩

/-- A mapped field always yields a write through `setCellValue`, and that
write carries the field. -/
lemma setCell_exists (m : Field → Option Nat) (r : Nat) (f : Field) (v : PyVal)
    (col : Nat) (hcol : m f = some col) :
    ∃ w, setCellValue m r f v = some w ∧ w.field = f := by
  unfold setCellValue
  simp only [hcol]
  by_cases h1 : (isNumericVal v && !isTextField f) = true
  · rw [if_pos h1]; exact ⟨_, rfl, rfl⟩
  · rw [if_neg h1]
    by_cases h2 : isTextField f = true
    · rw [if_pos h2]; exact ⟨_, rfl, rfl⟩
    · rw [if_neg h2]; exact ⟨_, rfl, rfl⟩

/-- The write emitted for the product field carries the fixed literal
`"livres"` as text. -/
lemma setCell_product_value (m : Field → Option Nat) (r : Nat) (w : CellWrite)
    (hw : w ∈ (setCellValue m r .product (.str "livres")).toList) :
    w.value = .text "livres" := by
  unfold setCellValue at hw
  cases hm : m Field.product with
  | none =>
    simp only [hm, Option.toList] at hw
    exact absurd hw (List.not_mem_nil _)
  | some col =>
    simp only [hm] at hw
    rw [if_neg (by decide : ¬ ((isNumericVal (PyVal.str "livres") &&
          !isTextField Field.product) = true)),
        if_neg (by decide : ¬ (isTextField Field.product = true))] at hw
    simp only [Option.toList, List.mem_singleton] at hw
    rw [hw]
    rfl

/-- Splitting a membership in the nine-chunk append produced for a
customerless order. -/
lemma mem_nine (w : CellWrite) (l1 l2 l3 l4 l5 l6 l7 l8 l9 : List CellWrite)
    (hw : w ∈ l1 ++ ([] : List CellWrite) ++ l2 ++ l3 ++ l4 ++ l5 ++ l6 ++ l7 ++
      l8 ++ l9 ++ ([] : List CellWrite)) :
    w ∈ l1 ∨ w ∈ l2 ∨ w ∈ l3 ∨ w ∈ l4 ∨ w ∈ l5 ∨ w ∈ l6 ∨ w ∈ l7 ∨ w ∈ l8 ∨ w ∈ l9 := by
  simp only [List.mem_append, List.not_mem_nil, or_false, false_or] at hw
  tauto

/-- The converse direction of `mem_nine`. -/
lemma mem_nine_intro (w : CellWrite) (l1 l2 l3 l4 l5 l6 l7 l8 l9 : List CellWrite)
    (h : w ∈ l1 ∨ w ∈ l2 ∨ w ∈ l3 ∨ w ∈ l4 ∨ w ∈ l5 ∨ w ∈ l6 ∨ w ∈ l7 ∨ w ∈ l8 ∨ w ∈ l9) :
    w ∈ l1 ++ ([] : List CellWrite) ++ l2 ++ l3 ++ l4 ++ l5 ++ l6 ++ l7 ++
      l8 ++ l9 ++ ([] : List CellWrite) := by
  simp only [List.mem_append, List.not_mem_nil, or_false, false_or]
  tauto

/-- C10: an order without a `customer` key still produces its row without
failing: only the nine customer-independent fields (reference, product,
amount, note and the five flags) can be written, each targeted at the
order's row; every mapped one of those nine fields is written; and the
product cell carries the fixed literal `"livres"`. The name, phone,
phone2, wilaya_code, wilaya, commune, address and map cells are untouched
(they are not among the nine). -/
theorem c10_no_customer_row (m : Field → Option Nat)
    (lookup : Option (String → Option String)) (r : Nat) (o : OrderRec)
    (hc : o.customer = Option.none) :
    (∀ w ∈ orderWrites m lookup r o,
      w.field ∈ ([.ref, .product, .amount, .note, .fragile, .exchange, .pickup,
        .cod, .stop_desk] : List Field) ∧ w.row = r) ∧
    (∀ f ∈ ([.ref, .product, .amount, .note, .fragile, .exchange, .pickup,
        .cod, .stop_desk] : List Field),
      (m f).isSome = true → ∃ w ∈ orderWrites m lookup r o, w.field = f) ∧
    (∀ w ∈ orderWrites m lookup r o, w.field = .product → w.value = .text "livres") := by
  refine ⟨?_, ?_, ?_⟩
  · intro w hw
    unfold orderWrites at hw
    rw [hc] at hw
    rcases mem_nine w _ _ _ _ _ _ _ _ _ hw with h | h | h | h | h | h | h | h | h <;>
      (obtain ⟨hf, hr⟩ := setCell_field_row _ _ _ _ _ h;
       exact ⟨by rw [hf]; decide, hr⟩)
  · intro f hf hsome
    obtain ⟨col, hcol⟩ := Option.isSome_iff_exists.mp hsome
    simp only [List.mem_cons, List.not_mem_nil, or_false] at hf
    unfold orderWrites
    rw [hc]
    rcases hf with rfl | rfl | rfl | rfl | rfl | rfl | rfl | rfl | rfl
    · obtain ⟨w, hw, hwf⟩ := setCell_exists m r .ref (o.reference.getD (.str "")) col hcol
      exact ⟨w, mem_nine_intro w _ _ _ _ _ _ _ _ _ (Or.inl (by simp [hw, Option.toList])), hwf⟩
    · obtain ⟨w, hw, hwf⟩ := setCell_exists m r .product (.str "livres") col hcol
      exact ⟨w, mem_nine_intro w _ _ _ _ _ _ _ _ _
        (Or.inr (Or.inl (by simp [hw, Option.toList]))), hwf⟩
    · obtain ⟨w, hw, hwf⟩ := setCell_exists m r .amount (amountVal o) col hcol
      exact ⟨w, mem_nine_intro w _ _ _ _ _ _ _ _ _
        (Or.inr (Or.inr (Or.inl (by simp [hw, Option.toList])))), hwf⟩
    · obtain ⟨w, hw, hwf⟩ := setCell_exists m r .note (o.notes.getD (.str "")) col hcol
      exact ⟨w, mem_nine_intro w _ _ _ _ _ _ _ _ _
        (Or.inr (Or.inr (Or.inr (Or.inl (by simp [hw, Option.toList]))))), hwf⟩
    · obtain ⟨w, hw, hwf⟩ := setCell_exists m r .fragile (.str (flagCell o.fragile)) col hcol
      exact ⟨w, mem_nine_intro w _ _ _ _ _ _ _ _ _
        (Or.inr (Or.inr (Or.inr (Or.inr (Or.inl (by simp [hw, Option.toList])))))), hwf⟩
    · obtain ⟨w, hw, hwf⟩ := setCell_exists m r .exchange (.str (flagCell o.echange)) col hcol
      exact ⟨w, mem_nine_intro w _ _ _ _ _ _ _ _ _
        (Or.inr (Or.inr (Or.inr (Or.inr (Or.inr (Or.inl (by simp [hw, Option.toList]))))))), hwf⟩
    · obtain ⟨w, hw, hwf⟩ := setCell_exists m r .pickup (.str (flagCell o.pickup)) col hcol
      exact ⟨w, mem_nine_intro w _ _ _ _ _ _ _ _ _
        (Or.inr (Or.inr (Or.inr (Or.inr (Or.inr (Or.inr (Or.inl
          (by simp [hw, Option.toList])))))))), hwf⟩
    · obtain ⟨w, hw, hwf⟩ := setCell_exists m r .cod (.str (flagCell o.recouvrement)) col hcol
      exact ⟨w, mem_nine_intro w _ _ _ _ _ _ _ _ _
        (Or.inr (Or.inr (Or.inr (Or.inr (Or.inr (Or.inr (Or.inr (Or.inl
          (by simp [hw, Option.toList]))))))))), hwf⟩
    · obtain ⟨w, hw, hwf⟩ := setCell_exists m r .stop_desk (.str (flagCell o.stopDesk)) col hcol
      exact ⟨w, mem_nine_intro w _ _ _ _ _ _ _ _ _
        (Or.inr (Or.inr (Or.inr (Or.inr (Or.inr (Or.inr (Or.inr (Or.inr
          (by simp [hw, Option.toList]))))))))), hwf⟩
  · intro w hw hwp
    unfold orderWrites at hw
    rw [hc] at hw
    rcases mem_nine w _ _ _ _ _ _ _ _ _ hw with h | h | h | h | h | h | h | h | h
    · have := (setCell_field_row _ _ _ _ _ h).1
      rw [this] at hwp; exact absurd hwp (by decide)
    · exact setCell_product_value _ _ _ h
    · have := (setCell_field_row _ _ _ _ _ h).1
      rw [this] at hwp; exact absurd hwp (by decide)
    · have := (setCell_field_row _ _ _ _ _ h).1
      rw [this] at hwp; exact absurd hwp (by decide)
    · have := (setCell_field_row _ _ _ _ _ h).1
      rw [this] at hwp; exact absurd hwp (by decide)
    · have := (setCell_field_row _ _ _ _ _ h).1
      rw [this] at hwp; exact absurd hwp (by decide)
    · have := (setCell_field_row _ _ _ _ _ h).1
      rw [this] at hwp; exact absurd hwp (by decide)
    · have := (setCell_field_row _ _ _ _ _ h).1
      rw [this] at hwp; exact absurd hwp (by decide)
    · have := (setCell_field_row _ _ _ _ _ h).1
      rw [this] at hwp; exact absurd hwp (by decide)

/-- C10 witness. -/
theorem c10_witness :
    ∃ w ∈ orderWrites mEx Option.none 2 oNoCust, w.field = Field.product :=
  (c10_no_customer_row mEx Option.none 2 oNoCust rfl).2.1 .product (by decide) rfl

end Ecotrack
